import Mathlib

/-!
# The Droid agent of adx-automation-agent

A shallow embedding of `agents/droid/main.go`: the job-name parser `splitJobName`
(a Go regular expression, embedded as the backtracking matcher it denotes), the
environment check `ckEnvironment`, the script runners `preparePod` and `afterTask`,
and the consume / execute / commit / acknowledge loop of `main`.

Conventions.
* Go strings are Lean strings, that is sequences of Unicode scalar values (valid UTF-8).
* A Go `error` is its message; `nil` is `none`.
* Everything outside the process (environment, broker, store, file system, child
  processes) is a field of `World`; what happens while one delivery is processed is
  bundled in `Delivery`.  The queue is the finite list of answers of `ch.Get`.
* A run of `main` is the list of events it performs, each tagged with the index of the
  delivery being processed (`none` before the loop and for the fetches that return no
  delivery), together with the way the process ends.
-/

namespace Droid

/-! ## The job-name pattern -/

/-- The regular-expression atom `.` without the `s` flag: any character but line feed. -/
def dot (c : Char) : Bool := c != '\n'

/-- Greedy `.*` followed by the continuation `k`: consuming one more character is
preferred, stopping here is the fallback (leftmost-first backtracking order).
`acc` is the text the enclosing group has consumed so far. -/
def dotStar {α : Type} (k : List Char → List Char → Option α) :
    List Char → List Char → Option α
  | acc, [] => k acc []
  | acc, c :: cs =>
    if dot c then
      match dotStar k (acc ++ [c]) cs with
      | some v => some v
      | none => k acc (c :: cs)
    else k acc (c :: cs)

/-- Greedy `.+`: one `.` and then greedy `.*`. -/
def dotPlus {α : Type} (k : List Char → List Char → Option α) : List Char → Option α
  | [] => none
  | c :: cs => if dot c then dotStar k [c] cs else none

/-- A literal `-` followed by the continuation `k`. -/
def hyphen {α : Type} (k : List Char → Option α) : List Char → Option α
  | [] => none
  | c :: cs => if c = '-' then k cs else none

/-- The anchor `$` without the `m` flag: end of text. -/
def endOfText {α : Type} (v : α) : List Char → Option α
  | [] => some v
  | _ :: _ => none

/-- `jobNamePattern.FindStringSubmatch` for
`^(?P<product>.+)-(?P<runID>.+)-(?P<randomID>.+)$`: the three groups of the match a
backtracking search finds first, `none` when there is no match.  The pattern is anchored
at the start, so the search only starts at offset 0. -/
def jobNamePattern (s : List Char) : Option (List Char × List Char × List Char) :=
  dotPlus (fun product r1 =>
    hyphen (fun r2 =>
      dotPlus (fun runID r3 =>
        hyphen (fun r4 =>
          dotPlus (fun randomID r5 => endOfText (product, runID, randomID) r5) r4) r3) r2) r1) s

/-! ## The verb `%q` -/

/-- Go `strconv.IsPrint`: explicit on Latin-1, a lookup in the Unicode tables above it.
The tables are not part of the repository and are the parameter `isPrintTable`. -/
def IsPrint (isPrintTable : Char → Bool) (r : Char) : Bool :=
  if r.toNat ≤ 0xFF then
    if 0x20 ≤ r.toNat ∧ r.toNat ≤ 0x7E then true
    else if 0xA1 ≤ r.toNat ∧ r.toNat ≤ 0xFF then r.toNat != 0xAD
    else false
  else isPrintTable r

/-- One lower-case hexadecimal digit (`lowerhex[n & 0xF]`). -/
def lowerhex (n : Nat) : Char :=
  "0123456789abcdef".data.getD (n % 16) '0'

/-- The `width` low hexadecimal digits of `n`, most significant first. -/
def hexDigits : Nat → Nat → List Char
  | 0, _ => []
  | width + 1, n => hexDigits width (n / 16) ++ [lowerhex n]

/-- Go `strconv.appendEscapedRune` with the double quote as quote character, as used
by `strconv.Quote`. -/
def appendEscapedRune (isPrintTable : Char → Bool) (r : Char) : List Char :=
  if r = '"' ∨ r = '\\' then ['\\', r]
  else if IsPrint isPrintTable r then [r]
  else if r.toNat = 7 then ['\\', 'a']
  else if r.toNat = 8 then ['\\', 'b']
  else if r.toNat = 12 then ['\\', 'f']
  else if r = '\n' then ['\\', 'n']
  else if r = '\r' then ['\\', 'r']
  else if r = '\t' then ['\\', 't']
  else if r.toNat = 11 then ['\\', 'v']
  else if r.toNat < 0x20 ∨ r.toNat = 0x7f then '\\' :: 'x' :: hexDigits 2 r.toNat
  else if r.toNat < 0x10000 then '\\' :: 'u' :: hexDigits 4 r.toNat
  else '\\' :: 'U' :: hexDigits 8 r.toNat

/-- Go `strconv.Quote`, which is what the verb `%q` prints for a string. -/
def Quote (isPrintTable : Char → Bool) (s : String) : String :=
  String.mk (['"'] ++ (s.data.map (appendEscapedRune isPrintTable)).flatten ++ ['"'])

/-! ## splitJobName -/

/-- The function `splitJobName`: product name, run ID and error. -/
def splitJobName (isPrintTable : Char → Bool) (jobName : String) :
    String × String × Option String :=
  match jobNamePattern jobName.data with
  | none =>
    ("", "", some (Quote isPrintTable jobName ++ " is not in format <product>-<runID>-<randomID>"))
  | some (product, runID, _) => (String.mk product, String.mk runID, none)

/-! ## Constants and records of the packages `common` and `models` -/

/-- The constants of package `common` that `main.go` uses and whose declarations are
not among the sources (environment keys, result-detail keys and the well-known paths),
as parameters. -/
structure Common where
  EnvKeyInternalCommunicationKey : String
  EnvJobName : String
  EnvPodName : String
  KeyTaskLogPath : String
  KeyTaskRecordPath : String
  PathScriptPreparePod : String
  PathScriptAfterTest : String
  PathMountArtifacts : String

/-- The constant `common.ProductSecretKeyLogPathTemplate`. -/
def ProductSecretKeyLogPathTemplate : String := "log.path.template"

/-- Modelled from the spec: the record `models.TaskResult`, whose declaration is not
among the sources: numeric identifiers, pod name, an outcome, the result-detail mapping
(here an association list, first binding of a key wins) and a duration. -/
structure TaskResult where
  ID : Int
  RunID : Int
  PodName : String
  Result : String
  ResultDetails : List (String × String)
  Duration : Nat
deriving DecidableEq, Repr

/-- Modelled from the spec: the record `models.TaskSetting`, whose declaration is not
among the sources: an identifier and the parameters needed to launch the test. -/
structure TaskSetting where
  Identifier : String
  Parameters : String
deriving DecidableEq, Repr

/-- The pure functions of the packages `models` and `encoding/json` that the loop
calls and whose code is not among the sources, as parameters. -/
structure Models where
  /-- The call `json.Unmarshal(delivery.Body, &setting)`: the setting left behind and the error. -/
  Unmarshal : String → TaskSetting × Option String
  GetIdentifier : TaskSetting → String
  /-- The arguments are the setting, `podName`, `runID` and `errorMsg`. -/
  CreateUncompletedTask : TaskSetting → String → String → String → TaskResult
  /-- The arguments are the setting, `result`, `duration`, `podName` and `runID`. -/
  CreateCompletedTask : TaskSetting → Bool → Nat → String → String → TaskResult
  /-- The call `json.Marshal(taskResult)`. -/
  Marshal : TaskResult → Except String String

/-! ## ckEnvironment -/

/-- The function `ckEnvironment`; `LookupEnv k` is `some v` when `os.LookupEnv(k)` reports
the variable as set. -/
def ckEnvironment (c : Common) (LookupEnv : String → Option String) : Option String :=
  let required := [c.EnvKeyInternalCommunicationKey, c.EnvJobName]
  let missing := required.foldl
    (fun missing r => if (LookupEnv r).isSome then missing else missing ++ [r]) []
  if missing.length > 0 then
    some (missing.foldl (fun builder entry => builder ++ "\t" ++ entry ++ "\n")
      "the following required environment variables are missing:\n")
  else none

/-! ## The world outside the process -/

/-- What the outside world answers while one delivery is processed. -/
structure Delivery where
  /-- The bytes of `delivery.Body`. -/
  Body : String
  /-- The call `setting.Execute()`: result, duration and captured output. -/
  Execute : TaskSetting → Bool × Nat × String
  /-- The call `taskResult.CommitNew()`. -/
  CommitNew : TaskResult → Except String TaskResult
  /-- The call `taskResult.SaveTaskLog(output)`: the path and the error. -/
  SaveTaskLog : TaskResult → String → String × Option String
  /-- The call `taskResult.CommitChanges()`: the error. -/
  CommitChanges : TaskResult → Option String
  /-- The call `delivery.Ack(false)`: the error. -/
  Ack : Option String
  /-- Whether `os.IsNotExist` holds of what `os.Stat` answers for the path. -/
  IsNotExist : String → Bool
  /-- Running a command with arguments, where `cmdRun` leaves it to the world: the
  error of `cmd.Run()` and the combined output. -/
  Exec : String → List String → Option String × String

/-- The world `main` runs in. -/
structure World where
  /-- The linker-set variables `version` and `sourceCommit`. -/
  version : String
  sourceCommit : String
  /-- The table behind `strconv.IsPrint`. -/
  isPrintTable : Char → Bool
  LookupEnv : String → Option String
  models : Models
  /-- The error of `schedule.CreateInClusterTaskBroker()`. -/
  CreateInClusterTaskBroker : Option String
  /-- The error of `taskBroker.QueueDeclare(jobName)`. -/
  QueueDeclare : String → Option String
  /-- The call `kubeutils.TryGetSecretInBytes(product, key)`. -/
  TryGetSecretInBytes : String → String → Option String
  /-- The file system and the child process while the pod is prepared. -/
  IsNotExist : String → Bool
  Exec : String → List String → Option String × String
  /-- The successive answers of `ch.Get(queue.Name, false)`: an error or a delivery;
  once the list is used up the queue is empty (`ok` is false). -/
  Queue : List (Except String Delivery)

/-- The levels of the logger that `main.go` uses. -/
inductive Level where
  | info
  | error
  | fatal
deriving DecidableEq, Repr

/-- The steps taken for one delivery. -/
inductive Step where
  | get
  | unmarshal
  | execute
  | commitNew
  | saveTaskLog
  | afterTask
  | commitChanges
  | ack
deriving DecidableEq, Repr

/-- What the process does that the outside can see. -/
inductive Event where
  /-- A log line. -/
  | log (level : Level) (msg : String)
  /-- The call `cmd.Run()` of a command `path args`. -/
  | run (path : String) (args : List String)
  /-- The call `ch.Get` handed out a delivery. -/
  | got
  /-- The call `json.Unmarshal` on the body of the delivery. -/
  | unmarshal
  /-- The call `setting.Execute()`. -/
  | execute
  /-- The call `CommitNew` on the given result. -/
  | commitNew (r : TaskResult)
  /-- The call `SaveTaskLog` on the given result. -/
  | saveTaskLog (r : TaskResult)
  /-- The call of `afterTask` with the given result. -/
  | afterTask (r : TaskResult)
  /-- The call `CommitChanges` on the given result. -/
  | commitChanges (r : TaskResult)
  /-- The call `delivery.Ack(false)`. -/
  | ack
deriving DecidableEq, Repr

/-- The step an event is, if it is one. -/
def Event.step : Event → Option Step
  | .log _ _ => none
  | .run _ _ => none
  | .got => some .get
  | .unmarshal => some .unmarshal
  | .execute => some .execute
  | .commitNew _ => some .commitNew
  | .saveTaskLog _ => some .saveTaskLog
  | .afterTask _ => some .afterTask
  | .commitChanges _ => some .commitChanges
  | .ack => some .ack

/-- How the process ends: `success` is the return of `main`, `fatal` the exit of
`logger.Fatal`. -/
inductive Exit where
  | success
  | fatal
deriving DecidableEq, Repr

/-- A run: the events in order, each with the index of the delivery being processed,
and the way the process ends. -/
structure Run where
  trace : List (Option Nat × Event)
  exit : Exit
deriving DecidableEq, Repr

/-- The events of a run that belong to delivery `i`, in order. -/
def eventsOf (i : Nat) (trace : List (Option Nat × Event)) : List Event :=
  (trace.filter (fun e => e.1 = some i)).map Prod.snd

/-- The steps of a run that belong to delivery `i`, in order. -/
def stepsOf (i : Nat) (trace : List (Option Nat × Event)) : List Step :=
  (eventsOf i trace).filterMap Event.step

/-! ## Running a script -/

/-- Whether `exec.CommandContext` takes the name as the path of the file to start,
without a search: the name holds a slash and is not `/` itself (then
`filepath.Base(name) != name`).  A name without a slash is searched for in `$PATH` by
`exec.LookPath`, whatever `os.Stat` says of it. -/
def isDirectPath (path : String) : Bool :=
  path.data.contains '/' && path != "/"

/-- The error of `cmd.Run()` for a path whose file does not exist. -/
def errNoSuchFile (path : String) : String :=
  "fork/exec " ++ path ++ ": no such file or directory"

/-- The call `cmd.Run()` for `exec.CommandContext(ctx, path, args...)` with both output
streams in one buffer.  When the name is the path of the file to start and the file does
not exist, the start fails with nothing written; in every other case (the file exists,
or the name is searched for in `$PATH`) the world decides. -/
def cmdRun (IsNotExist : String → Bool) (Exec : String → List String → Option String × String)
    (path : String) (args : List String) : Option String × String :=
  if isDirectPath path && IsNotExist path then (some (errNoSuchFile path), "")
  else Exec path args

/-- The function `preparePod`: its events, and whether it terminated the process
(`logger.Fatalf`). -/
def preparePod (IsNotExist : String → Bool)
    (Exec : String → List String → Option String × String) (prepPath : String) :
    List Event × Bool :=
  let skipped :=
    if IsNotExist prepPath then
      [Event.log .info ("skipping pod preparation, " ++ prepPath ++ " not present")]
    else []
  let (err, output) := cmdRun IsNotExist Exec prepPath []
  let ran := skipped ++ [Event.run prepPath []]
  match err with
  | none =>
    if output.length > 0 then
      (ran ++ [Event.log .info ("pod prepared" ++ " output:\n" ++ output)], false)
    else (ran ++ [Event.log .info "pod prepared"], false)
  | some e =>
    if output.length > 0 then
      (ran ++ [Event.log .fatal
        ("pod preparation failed\n\terr: " ++ e ++ "\n\toutput:\n" ++ output)], true)
    else (ran ++ [Event.log .fatal ("pod preparation failed\n\terr: " ++ e)], true)

/-- The function `afterTask`; it never terminates the process. -/
def afterTask (c : Common) (m : Models) (IsNotExist : String → Bool)
    (Exec : String → List String → Option String × String) (afterPath : String)
    (taskResult : TaskResult) : List Event :=
  if IsNotExist afterPath then [Event.log .info "no after task action found"]
  else
    let announced := [Event.log .info ("Executing after task " ++ c.PathScriptAfterTest ++ ".")]
    match m.Marshal taskResult with
    | .error e => announced ++ [Event.log .error ("unable to encode task to JSON: " ++ e)]
    | .ok taskInBytes =>
      let args := [c.PathMountArtifacts, taskInBytes]
      let (err, outBuf) := cmdRun IsNotExist Exec afterPath args
      let ran := announced ++ [Event.run afterPath args]
      match err with
      | none =>
        if outBuf.length > 0 then
          ran ++ [Event.log .info ("after-task succeeded" ++ " output:\n" ++ outBuf)]
        else ran ++ [Event.log .info "after-task succeeded"]
      | some e =>
        if outBuf.length > 0 then
          ran ++ [Event.log .error
            ("after-task failed\n\terr: " ++ e ++ "\n\toutput:\n" ++ outBuf)]
        else ran ++ [Event.log .error ("after-task failed\n\terr: " ++ e)]

/-! ## The loop -/

/-- Go `strings.Replace(s, old, new, 1)` for a non-empty `old`: the first occurrence
of `old` is replaced. -/
def replaceFirst (old new : List Char) : List Char → List Char
  | [] => []
  | c :: cs =>
    if old.isPrefixOf (c :: cs) then new ++ (c :: cs).drop old.length
    else c :: replaceFirst old new cs

/-- The call `strings.Replace(logPathTemplate, "{}", value, 1)`. -/
def fillTemplate (logPathTemplate value : String) : String :=
  String.mk (replaceFirst "\x7b\x7d".data value.data logPathTemplate.data)

/-- The assignment `m[key] = value` of a Go map, on association lists. -/
def mapAssign (m : List (String × String)) (key value : String) : List (String × String) :=
  (key, value) :: m.filter (fun e => e.1 != key)

/-- The expression
`path.Join(strconv.Itoa(taskResult.RunID), fmt.Sprintf("recording_%d.yaml", taskResult.ID))`:
neither element is empty or holds a slash or a dot segment, so the join is the two
elements with a slash between them. -/
def recordPath (taskResult : TaskResult) : String :=
  toString taskResult.RunID ++ "/" ++ ("recording_" ++ toString taskResult.ID ++ ".yaml")

/-- The two assignments to `taskResult.ResultDetails` of the commit-changes step. -/
def rewriteDetails (c : Common) (logPathTemplate taskLogPath : String)
    (taskResult : TaskResult) : TaskResult :=
  let r1 := { taskResult with
    ResultDetails := mapAssign taskResult.ResultDetails c.KeyTaskLogPath
      (fillTemplate logPathTemplate taskLogPath) }
  { r1 with
    ResultDetails := mapAssign r1.ResultDetails c.KeyTaskRecordPath
      (fillTemplate logPathTemplate (recordPath r1)) }

/-- What `main` has at hand when it enters the loop. -/
structure Context where
  jobName : String
  productName : String
  runID : String
  podName : String
  logPathTemplate : String
deriving DecidableEq, Repr

/-- The decode-or-execute part of the loop body: its events, the task result and the
captured output. -/
def runTask (m : Models) (x : Context) (d : Delivery) : List Event × TaskResult × String :=
  let (setting, err) := m.Unmarshal d.Body
  match err with
  | some e =>
    let errorMsg := "Failed to unmarshel a delivery's body in JSON: " ++ e
    ([Event.unmarshal, Event.log .error errorMsg],
      m.CreateUncompletedTask setting x.podName x.runID errorMsg, "")
  | none =>
    let (result, duration, executeOutput) := d.Execute setting
    ([Event.unmarshal, Event.log .info ("Run task " ++ m.GetIdentifier setting), Event.execute],
      m.CreateCompletedTask setting result duration x.podName x.runID, executeOutput)

/-- The commit part of the loop body, from `CommitNew` up to (not including) the
acknowledgment. -/
def commitTask (c : Common) (m : Models) (x : Context) (d : Delivery)
    (taskResult : TaskResult) (output : String) : List Event :=
  match d.CommitNew taskResult with
  | .error e =>
    [Event.commitNew taskResult, Event.log .error ("Failed to commit a new task: " ++ e)]
  | .ok taskResult1 =>
    let (taskLogPath, err) := d.SaveTaskLog taskResult1 output
    let saved := [Event.commitNew taskResult, Event.saveTaskLog taskResult1] ++
      (match err with
        | some e => [Event.log .error e]
        | none => [])
    let hooked := [Event.afterTask taskResult1] ++
      afterTask c m d.IsNotExist d.Exec c.PathScriptAfterTest taskResult1
    let changed :=
      if x.logPathTemplate.length > 0 then
        let taskResult2 := rewriteDetails c x.logPathTemplate taskLogPath taskResult1
        [Event.commitChanges taskResult2] ++
          (match d.CommitChanges taskResult2 with
            | some e => [Event.log .error e]
            | none => [])
      else []
    saved ++ hooked ++ changed

/-- The loop body for a delivery that `ch.Get` handed out. -/
def processDelivery (c : Common) (m : Models) (x : Context) (d : Delivery) : List Event :=
  let (ran, taskResult, output) := runTask m x d
  let committed := commitTask c m x d taskResult output
  let acked := [Event.ack] ++
    (match d.Ack with
      | some e => [Event.log .error ("Failed to ack delivery: " ++ e)]
      | none => [Event.log .info "ACK"])
  [Event.got] ++ ran ++ committed ++ acked

/-- The `for` loop of `main`, at its `i`-th iteration, against the remaining answers of
`ch.Get`. -/
def loop (c : Common) (m : Models) (x : Context) : Nat → List (Except String Delivery) → Run
  | _, [] => ⟨[(none, Event.log .info "No more task in the queue. Exiting successfully.")],
      Exit.success⟩
  | _, .error e :: _ => ⟨[(none, Event.log .fatal ("Failed to get a delivery: " ++ e))],
      Exit.fatal⟩
  | i, .ok d :: rest =>
    let r := loop c m x (i + 1) rest
    ⟨(processDelivery c m x d).map (fun e => (some i, e)) ++ r.trace, r.exit⟩

/-! ## main -/

/-- The function `init`, for one of the two variables. -/
def orUnknown (v : String) : String := if v = "" then "Unknown" else v

/-- The call `os.Getenv`. -/
def Getenv (LookupEnv : String → Option String) (key : String) : String :=
  (LookupEnv key).getD ""

/-- The part of `main` before the loop: its events, and the context the loop starts
with, or `none` when the process was terminated by `logger.Fatal`. -/
def startup (c : Common) (w : World) : List Event × Option Context :=
  let banner := [Event.log .info ("A01 Droid Engine\n\tVersion: " ++ orUnknown w.version ++
    "\n\tCommit: " ++ orUnknown w.sourceCommit)]
  match ckEnvironment c w.LookupEnv with
  | some err => (banner ++ [Event.log .fatal err], none)
  | none =>
    let jobName := Getenv w.LookupEnv c.EnvJobName
    match splitJobName w.isPrintTable jobName with
    | (_, _, some err) => (banner ++ [Event.log .fatal err], none)
    | (productName, runID, none) =>
      let named := banner ++ [Event.log .info ("Run ID: " ++ runID)]
      match w.CreateInClusterTaskBroker with
      | some err => (named ++ [Event.log .fatal err], none)
      | none =>
        match w.QueueDeclare jobName with
        | some _ => (named ++ [Event.log .fatal "Failed to connect to the task broker."], none)
        | none =>
          let logPathTemplate :=
            match w.TryGetSecretInBytes productName ProductSecretKeyLogPathTemplate with
            | some bLogPathTemplate => bLogPathTemplate
            | none => ""
          let (prepared, terminated) := preparePod w.IsNotExist w.Exec c.PathScriptPreparePod
          if terminated then (named ++ prepared, none)
          else (named ++ prepared,
            some ⟨jobName, productName, runID, Getenv w.LookupEnv c.EnvPodName, logPathTemplate⟩)

/-- The function `main`. -/
def main (c : Common) (w : World) : Run :=
  match startup c w with
  | (before, none) => ⟨before.map (fun e => (none, e)), Exit.fatal⟩
  | (before, some x) =>
    let r := loop c w.models x 0 w.Queue
    ⟨before.map (fun e => (none, e)) ++ r.trace, r.exit⟩

/-! ## Sample worlds -/

/-- Sample values for the constants of package `common`. -/
def sampleCommon : Common where
  EnvKeyInternalCommunicationKey := "A01_INTERNAL_COMKEY"
  EnvJobName := "ENV_JOB_NAME"
  EnvPodName := "ENV_POD_NAME"
  KeyTaskLogPath := "a01.reserved.tasklogpath"
  KeyTaskRecordPath := "a01.reserved.taskrecordpath"
  PathScriptPreparePod := "/app/prepare_pod"
  PathScriptAfterTest := "/app/after_test"
  PathMountArtifacts := "/mnt/storage"

/-- A sample task result. -/
def sampleResult : TaskResult := ⟨0, 42, "pod-1", "Passed", [("agent", "droid")], 3⟩

/-- Sample functions of package `models`: a body decodes unless it is empty. -/
def sampleModels : Models where
  Unmarshal := fun body =>
    if body = "" then (⟨"", ""⟩, some "unexpected end of JSON input")
    else (⟨body, ""⟩, none)
  GetIdentifier := fun setting => setting.Identifier
  CreateUncompletedTask := fun _ podName _ errorMsg =>
    { sampleResult with PodName := podName, Result := errorMsg }
  CreateCompletedTask := fun _ _ duration podName _ =>
    { sampleResult with PodName := podName, Duration := duration }
  Marshal := fun r => .ok ("task " ++ toString r.ID)

/-- A sample delivery: the store accepts the result (assigning it the ID 7) or refuses
it, the log is saved, no after-task script is installed. -/
def sampleDelivery (body : String) (storeUp : Bool) : Delivery where
  Body := body
  Execute := fun _ => (true, 3, "ok")
  CommitNew := fun r => if storeUp then .ok { r with ID := 7 } else .error "store unreachable"
  SaveTaskLog := fun _ _ => ("logs/7.log", none)
  CommitChanges := fun _ => none
  Ack := none
  IsNotExist := fun _ => true
  Exec := fun _ _ => (none, "")

/-- A sample world: the configuration is complete, the broker answers, the preparation
script is installed and succeeds. -/
def sampleWorld (template : Option String) (queue : List (Except String Delivery)) : World where
  version := ""
  sourceCommit := ""
  isPrintTable := fun _ => false
  LookupEnv := fun key =>
    if key = "A01_INTERNAL_COMKEY" then some "secret"
    else if key = "ENV_JOB_NAME" then some "shop-42-x7k"
    else if key = "ENV_POD_NAME" then some "pod-1"
    else none
  models := sampleModels
  CreateInClusterTaskBroker := none
  QueueDeclare := fun _ => none
  TryGetSecretInBytes := fun _ _ => template
  IsNotExist := fun _ => false
  Exec := fun _ _ => (none, "")
  Queue := queue

/-! ## The pattern matcher -/

theorem dotStar_eq_none_iff {α : Type} (k : List Char → List Char → Option α) :
    ∀ (s acc : List Char), dotStar k acc s = none ↔
      ∀ a b, s = a ++ b → (∀ c ∈ a, dot c = true) → k (acc ++ a) b = none := by
  intro s
  induction s with
  | nil =>
    intro acc
    simp only [dotStar]
    constructor
    · intro h a b hab _
      have h1 : a = [] := by
        cases a with
        | nil => rfl
        | cons x xs => simp at hab
      have h2 : b = [] := by
        subst h1; simpa using hab.symm
      subst h1; subst h2; simpa using h
    · intro h
      have := h [] [] rfl (by simp)
      simpa using this
  | cons c cs ih =>
    intro acc
    simp only [dotStar]
    by_cases hc : dot c = true
    · simp only [hc, if_true]
      constructor
      · intro h a b hab hdots
        cases hrec : dotStar k (acc ++ [c]) cs with
        | some v => rw [hrec] at h; simp at h
        | none =>
          rw [hrec] at h
          cases a with
          | nil =>
            simp only [List.nil_append] at hab
            subst hab; simpa using h
          | cons x xs =>
            simp only [List.cons_append, List.cons.injEq] at hab
            obtain ⟨hx, hcs⟩ := hab
            subst hx
            have := (ih (acc ++ [c])).1 hrec xs b hcs
              (fun d hd => hdots d (List.mem_cons_of_mem _ hd))
            simpa using this
      · intro h
        have hrec : dotStar k (acc ++ [c]) cs = none := by
          rw [ih]
          intro a b hab hdots
          have := h (c :: a) b (by simp [hab]) (by
            intro d hd
            rcases List.mem_cons.1 hd with rfl | hd
            · exact hc
            · exact hdots d hd)
          simpa using this
        rw [hrec]
        have := h [] (c :: cs) rfl (by simp)
        simpa using this
    · simp only [hc]
      constructor
      · intro h a b hab hdots
        cases a with
        | nil =>
          simp only [List.nil_append] at hab
          subst hab; simpa using h
        | cons x xs =>
          simp only [List.cons_append, List.cons.injEq] at hab
          obtain ⟨hx, _⟩ := hab
          subst hx
          exact absurd (hdots c (List.mem_cons_self _ _)) hc
      · intro h
        have := h [] (c :: cs) rfl (by simp)
        simpa using this


theorem dotStar_eq_some_of {α : Type} (k : List Char → List Char → Option α) (v : α) :
    ∀ (s acc a b : List Char), s = a ++ b → (∀ c ∈ a, dot c = true) →
      k (acc ++ a) b = some v →
      (∀ a' b', s = a' ++ b' → a.length < a'.length → (∀ c ∈ a', dot c = true) →
        k (acc ++ a') b' = none) →
      dotStar k acc s = some v := by
  intro s
  induction s with
  | nil =>
    intro acc a b hs _ hk _
    have h1 : a = [] := by
      cases a with
      | nil => rfl
      | cons x xs => simp at hs
    subst h1
    have h2 : b = [] := by simpa using hs.symm
    subst h2
    simpa [dotStar] using hk
  | cons c cs ih =>
    intro acc a b hs hd hk hmax
    simp only [dotStar]
    cases a with
    | nil =>
      simp only [List.nil_append] at hs
      subst hs
      by_cases hc : dot c = true
      · simp only [hc, if_true]
        have hrec : dotStar k (acc ++ [c]) cs = none := by
          rw [dotStar_eq_none_iff]
          intro a' b' hab hdots
          have := hmax (c :: a') b' (by simp [hab]) (by simp) (by
            intro d hd'
            rcases List.mem_cons.1 hd' with rfl | hd'
            · exact hc
            · exact hdots d hd')
          simpa using this
        rw [hrec]
        simpa using hk
      · simp only [hc]
        simpa using hk
    | cons x xs =>
      simp only [List.cons_append, List.cons.injEq] at hs
      obtain ⟨hx, hcs⟩ := hs
      subst hx
      have hc : dot c = true := hd c (List.mem_cons_self _ _)
      simp only [hc, if_true]
      have hrec : dotStar k (acc ++ [c]) cs = some v := by
        apply ih (acc ++ [c]) xs b hcs (fun d hd' => hd d (List.mem_cons_of_mem _ hd'))
        · simpa using hk
        · intro a' b' hab hlen hdots
          have := hmax (c :: a') b' (by simp [hab]) (by simpa using hlen) (by
            intro d hd'
            rcases List.mem_cons.1 hd' with rfl | hd'
            · exact hc
            · exact hdots d hd')
          simpa using this
      rw [hrec]

theorem dotPlus_eq_none_iff {α : Type} (k : List Char → List Char → Option α) (s : List Char) :
    dotPlus k s = none ↔
      ∀ a b, s = a ++ b → a ≠ [] → (∀ c ∈ a, dot c = true) → k a b = none := by
  cases s with
  | nil =>
    simp only [dotPlus, true_iff]
    intro a b hab hne
    cases a with
    | nil => exact absurd rfl hne
    | cons x xs => simp at hab
  | cons c cs =>
    simp only [dotPlus]
    by_cases hc : dot c = true
    · simp only [hc, if_true, dotStar_eq_none_iff]
      constructor
      · intro h a b hab hne hdots
        cases a with
        | nil => exact absurd rfl hne
        | cons x xs =>
          simp only [List.cons_append, List.cons.injEq] at hab
          obtain ⟨hx, hcs⟩ := hab
          subst hx
          have := h xs b hcs (fun d hd => hdots d (List.mem_cons_of_mem _ hd))
          simpa using this
      · intro h a b hab hdots
        have := h (c :: a) b (by simp [hab]) (by simp) (by
          intro d hd
          rcases List.mem_cons.1 hd with rfl | hd
          · exact hc
          · exact hdots d hd)
        simpa using this
    · simp only [hc]
      simp only [Bool.false_eq_true, if_false, true_iff]
      intro a b hab hne hdots
      cases a with
      | nil => exact absurd rfl hne
      | cons x xs =>
        simp only [List.cons_append, List.cons.injEq] at hab
        obtain ⟨hx, _⟩ := hab
        subst hx
        exact absurd (hdots c (List.mem_cons_self _ _)) hc

theorem dotPlus_eq_some_of {α : Type} (k : List Char → List Char → Option α) (v : α)
    (s a b : List Char) (hs : s = a ++ b) (hne : a ≠ []) (hd : ∀ c ∈ a, dot c = true)
    (hk : k a b = some v)
    (hmax : ∀ a' b', s = a' ++ b' → a.length < a'.length → (∀ c ∈ a', dot c = true) →
        k a' b' = none) :
    dotPlus k s = some v := by
  cases a with
  | nil => exact absurd rfl hne
  | cons x xs =>
    subst hs
    have hx : dot x = true := hd x (List.mem_cons_self _ _)
    simp only [List.cons_append, dotPlus, hx, if_true]
    apply dotStar_eq_some_of k v (xs ++ b) [x] xs b rfl
      (fun d hd' => hd d (List.mem_cons_of_mem _ hd'))
    · simpa using hk
    · intro a' b' hab hlen hdots
      have := hmax (x :: a') b' (by simp [hab]) (by simpa using hlen) (by
        intro d hd'
        rcases List.mem_cons.1 hd' with rfl | hd'
        · exact hx
        · exact hdots d hd')
      simpa using this

theorem hyphen_eq_none_iff {α : Type} (k : List Char → Option α) (s : List Char) :
    hyphen k s = none ↔ ∀ t, s = '-' :: t → k t = none := by
  cases s with
  | nil => simp [hyphen]
  | cons c cs =>
    simp only [hyphen]
    by_cases hc : c = '-'
    · subst hc; simp
    · simp only [hc, if_false, true_iff]
      intro t ht
      simp only [List.cons.injEq] at ht
      exact absurd ht.1 hc

theorem endOfText_eq_none_iff {α : Type} (v : α) (s : List Char) :
    endOfText v s = none ↔ s ≠ [] := by
  cases s <;> simp [endOfText]


theorem hyphen_cons {α : Type} (k : List Char → Option α) (t : List Char) :
    hyphen k ('-' :: t) = k t := by
  simp [hyphen]

theorem dot_eq_true_iff (c : Char) : dot c = true ↔ c ≠ '\n' := by
  simp [dot]

theorem append_split_of_length_lt {a b p q : List Char} (h : a ++ b = p ++ q)
    (hlen : p.length < a.length) : ∃ m, m ≠ [] ∧ a = p ++ m ∧ q = m ++ b := by
  rcases List.append_eq_append_iff.1 h with ⟨m, hm, hb⟩ | ⟨m, hm, hq⟩
  · exfalso
    have := congrArg List.length hm
    simp at this
    omega
  · refine ⟨m, ?_, hm, hq⟩
    intro hnil
    subst hnil
    simp at hm
    subst hm
    omega

theorem jobNamePattern_eq_none_iff (s : List Char) :
    jobNamePattern s = none ↔
      ¬ ∃ p r x : List Char, p ≠ [] ∧ r ≠ [] ∧ x ≠ [] ∧
        s = p ++ '-' :: (r ++ '-' :: x) ∧ ∀ c ∈ s, c ≠ '\n' := by
  unfold jobNamePattern
  rw [dotPlus_eq_none_iff]
  constructor
  · rintro h ⟨p, r, x, hp, hr, hx, hs, hnl⟩
    have hdots : ∀ c ∈ s, dot c = true := fun c hc => (dot_eq_true_iff c).2 (hnl c hc)
    have h1 := h p ('-' :: (r ++ '-' :: x)) hs hp
      (fun c hc => hdots c (by rw [hs]; exact List.mem_append_left _ hc))
    rw [hyphen_cons] at h1
    rw [dotPlus_eq_none_iff] at h1
    have h2 := h1 r ('-' :: x) rfl hr
      (fun c hc => hdots c (by
        rw [hs]
        exact List.mem_append_right _ (List.mem_cons_of_mem _ (List.mem_append_left _ hc))))
    rw [hyphen_cons] at h2
    rw [dotPlus_eq_none_iff] at h2
    have h3 := h2 x [] (by simp) hx
      (fun c hc => hdots c (by
        rw [hs]
        exact List.mem_append_right _ (List.mem_cons_of_mem _
          (List.mem_append_right _ (List.mem_cons_of_mem _ hc)))))
    simp [endOfText] at h3
  · intro h a b hab hane hadots
    rw [hyphen_eq_none_iff]
    intro t ht
    rw [dotPlus_eq_none_iff]
    intro a2 b2 ht2 ha2 ha2dots
    rw [hyphen_eq_none_iff]
    intro t2 hb2
    rw [dotPlus_eq_none_iff]
    intro a3 b3 ht3 ha3 ha3dots
    rw [endOfText_eq_none_iff]
    intro hb3
    apply h
    refine ⟨a, a2, a3, hane, ha2, ha3, ?_, ?_⟩
    · rw [hab, ht, ht2, hb2, ht3, hb3, List.append_nil]
    · intro c hc
      rw [hab, ht, ht2, hb2, ht3, hb3] at hc
      simp only [List.mem_append, List.mem_cons, List.not_mem_nil, or_false] at hc
      rcases hc with hc | rfl | hc | rfl | hc
      · exact (dot_eq_true_iff c).1 (hadots c hc)
      · decide
      · exact (dot_eq_true_iff c).1 (ha2dots c hc)
      · decide
      · exact (dot_eq_true_iff c).1 (ha3dots c hc)

theorem jobNamePattern_eq_some_of (s p r x : List Char) (hp : p ≠ []) (hr : r ≠ [])
    (hx : x ≠ []) (hs : s = p ++ '-' :: (r ++ '-' :: x)) (hrh : '-' ∉ r) (hxh : '-' ∉ x)
    (hnl : ∀ c ∈ s, c ≠ '\n') : jobNamePattern s = some (p, r, x) := by
  have hdots : ∀ c ∈ s, dot c = true := fun c hc => (dot_eq_true_iff c).2 (hnl c hc)
  unfold jobNamePattern
  apply dotPlus_eq_some_of _ _ s p ('-' :: (r ++ '-' :: x)) hs hp
    (fun c hc => hdots c (by rw [hs]; exact List.mem_append_left _ hc))
  · rw [hyphen_cons]
    apply dotPlus_eq_some_of _ _ _ r ('-' :: x) rfl hr
      (fun c hc => hdots c (by
        rw [hs]
        exact List.mem_append_right _ (List.mem_cons_of_mem _ (List.mem_append_left _ hc))))
    · rw [hyphen_cons]
      apply dotPlus_eq_some_of _ _ x x [] (by simp) hx
        (fun c hc => hdots c (by
          rw [hs]
          exact List.mem_append_right _ (List.mem_cons_of_mem _
            (List.mem_append_right _ (List.mem_cons_of_mem _ hc)))))
      · simp [endOfText]
      · intro a' b' hab hlen _
        have := congrArg List.length hab
        simp at this
        omega
    · intro a' b' hab hlen _
      rw [hyphen_eq_none_iff]
      intro t ht
      subst ht
      obtain ⟨m, hm, _, hq⟩ := append_split_of_length_lt hab.symm hlen
      cases m with
      | nil => exact absurd rfl hm
      | cons y ys =>
        simp only [List.cons_append, List.cons.injEq] at hq
        exfalso
        apply hxh
        rw [hq.2]
        simp
  · intro a' b' hab hlen _
    rw [hyphen_eq_none_iff]
    intro t ht
    rw [dotPlus_eq_none_iff]
    intro a2 b2 ht2 _ _
    rw [hyphen_eq_none_iff]
    intro t2 hb2
    exfalso
    subst ht ht2 hb2
    rw [hs] at hab
    obtain ⟨m, hm, _, hq⟩ := append_split_of_length_lt hab.symm hlen
    cases m with
    | nil => exact absurd rfl hm
    | cons y ys =>
      simp only [List.cons_append, List.cons.injEq] at hq
      have hcount := congrArg (List.count '-') hq.2
      have hr0 : List.count '-' r = 0 := List.count_eq_zero.2 hrh
      have hx0 : List.count '-' x = 0 := List.count_eq_zero.2 hxh
      simp [List.count_append, List.count_cons, hr0, hx0] at hcount
      omega


/-! ## splitJobName -/

theorem data_hyphenated (p r x : String) :
    (p ++ "-" ++ r ++ "-" ++ x).data = p.data ++ '-' :: (r.data ++ '-' :: x.data) := by
  simp [String.data_append]

theorem data_ne_nil {s : String} (h : s ≠ "") : s.data ≠ [] := by
  intro hd
  apply h
  apply String.ext
  simpa using hd

theorem splitJobName_of_none (t : Char → Bool) (s : String)
    (h : jobNamePattern s.data = none) :
    splitJobName t s =
      ("", "", some (Quote t s ++ " is not in format <product>-<runID>-<randomID>")) := by
  simp [splitJobName, h]

theorem splitJobName_of_some (t : Char → Bool) (s : String) (p r x : List Char)
    (h : jobNamePattern s.data = some (p, r, x)) :
    splitJobName t s = (String.mk p, String.mk r, none) := by
  simp [splitJobName, h]

theorem flatten_map_singleton (f : Char → List Char) :
    ∀ l : List Char, (∀ c ∈ l, f c = [c]) → (l.map f).flatten = l
  | [], _ => rfl
  | c :: cs, h => by
    have hc : f c = [c] := h c (List.mem_cons_self _ _)
    have hcs := flatten_map_singleton f cs (fun d hd => h d (List.mem_cons_of_mem _ hd))
    simp [hc, hcs]

theorem Quote_verbatim (t : Char → Bool) (s : String)
    (h : ∀ c ∈ s.data, IsPrint t c = true ∧ c ≠ '"' ∧ c ≠ '\\') :
    Quote t s = "\"" ++ s ++ "\"" := by
  have hflat : (s.data.map (appendEscapedRune t)).flatten = s.data := by
    apply flatten_map_singleton
    intro c hc
    obtain ⟨h1, h2, h3⟩ := h c hc
    simp [appendEscapedRune, h1, h2, h3]
  apply String.ext
  simp [Quote, hflat, String.data_append]

theorem count_hyphen_of_split (p r x : List Char) :
    2 ≤ (p ++ '-' :: (r ++ '-' :: x)).count '-' := by
  simp [List.count_append, List.count_cons]
  omega

/-- The four cases of `Test_splitJobName` in `main_test.go`. -/
theorem Test_splitJobName :
    splitJobName (fun _ => false) "a-b-c" = ("a", "b", none) ∧
    splitJobName (fun _ => false) "a123-b456-c789" = ("a123", "b456", none) ∧
    splitJobName (fun _ => false) "" =
      ("", "", some "\"\" is not in format <product>-<runID>-<randomID>") ∧
    splitJobName (fun _ => false) "a-b:c" =
      ("", "", some "\"a-b:c\" is not in format <product>-<runID>-<randomID>") := by
  decide

/-- C1 (amended): for every job name `product-runID-randomID` whose three segments
are non-empty, whose `runID` and `randomID` hold no hyphen (the split at the last two
hyphens) and which holds no line feed, `splitJobName` returns a nil error and exactly
`(product, runID)`. -/
theorem splitJobName_last_two_hyphens (t : Char → Bool) (product runID randomID : String)
    (hp : product ≠ "") (hr : runID ≠ "") (hx : randomID ≠ "")
    (hrh : '-' ∉ runID.data) (hxh : '-' ∉ randomID.data)
    (hnl : '\n' ∉ (product ++ "-" ++ runID ++ "-" ++ randomID).data) :
    splitJobName t (product ++ "-" ++ runID ++ "-" ++ randomID) = (product, runID, none) := by
  have h := jobNamePattern_eq_some_of (product ++ "-" ++ runID ++ "-" ++ randomID).data
    product.data runID.data randomID.data (data_ne_nil hp) (data_ne_nil hr) (data_ne_nil hx)
    (data_hyphenated product runID randomID) hrh hxh
    (fun c hc hcn => hnl (hcn ▸ hc))
  rw [splitJobName_of_some t _ _ _ _ h]

/-- C1, witness: the three examples `a-b-c`, `a123-b456-c789` and `a-b-c-d`. -/
theorem splitJobName_last_two_hyphens_witness :
    splitJobName (fun _ => false) ("a" ++ "-" ++ "b" ++ "-" ++ "c") = ("a", "b", none) ∧
    splitJobName (fun _ => false) ("a123" ++ "-" ++ "b456" ++ "-" ++ "c789") =
      ("a123", "b456", none) ∧
    splitJobName (fun _ => false) ("a-b" ++ "-" ++ "c" ++ "-" ++ "d") = ("a-b", "c", none) :=
  ⟨splitJobName_last_two_hyphens (fun _ => false) "a" "b" "c"
      (by decide) (by decide) (by decide) (by decide) (by decide) (by decide),
    splitJobName_last_two_hyphens (fun _ => false) "a123" "b456" "c789"
      (by decide) (by decide) (by decide) (by decide) (by decide) (by decide),
    splitJobName_last_two_hyphens (fun _ => false) "a-b" "c" "d"
      (by decide) (by decide) (by decide) (by decide) (by decide) (by decide)⟩

/-- C1, counterexample: the job name made of the product `a` followed by a line feed,
the run ID `b` and the random ID `c` has three non-empty segments under the split at
the last two hyphens, and `splitJobName` returns the format error for it. -/
theorem splitJobName_line_feed_counterexample :
    "a\n" ≠ "" ∧ "b" ≠ "" ∧ "c" ≠ "" ∧ '-' ∉ "b".data ∧ '-' ∉ "c".data ∧
    splitJobName (fun _ => false) ("a\n" ++ "-" ++ "b" ++ "-" ++ "c") ≠ ("a\n", "b", none) ∧
    splitJobName (fun _ => false) ("a\n" ++ "-" ++ "b" ++ "-" ++ "c") =
      ("", "", some "\"a\\n-b-c\" is not in format <product>-<runID>-<randomID>") := by
  decide

/-- C2 (amended): for every string with fewer than two hyphens `splitJobName` returns
an empty product name, an empty run ID and an error whose message is the string as the
verb `%q` prints it, followed by ` is not in format <product>-<runID>-<randomID>`; when
every character of the string is printable and is neither a double quote nor a
backslash, what `%q` prints is a double quote, the string, a double quote. -/
theorem splitJobName_fewer_than_two_hyphens (t : Char → Bool) (s : String)
    (h : s.data.count '-' < 2) :
    splitJobName t s =
      ("", "", some (Quote t s ++ " is not in format <product>-<runID>-<randomID>")) ∧
    ((∀ c ∈ s.data, IsPrint t c = true ∧ c ≠ '"' ∧ c ≠ '\\') →
      Quote t s = "\"" ++ s ++ "\"") := by
  refine ⟨splitJobName_of_none t s ?_, Quote_verbatim t s⟩
  rw [jobNamePattern_eq_none_iff]
  rintro ⟨p, r, x, _, _, _, hs, _⟩
  have := count_hyphen_of_split p r x
  rw [← hs] at this
  omega

/-- C2, witness: the string `a-b:c` of the tests. -/
theorem splitJobName_fewer_than_two_hyphens_witness :
    "a-b:c".data.count '-' < 2 ∧
    splitJobName (fun _ => false) "a-b:c" =
      ("", "", some "\"a-b:c\" is not in format <product>-<runID>-<randomID>") :=
  ⟨by decide, (splitJobName_fewer_than_two_hyphens (fun _ => false) "a-b:c" (by decide)).1⟩

/-- C2, counterexample: the string made of one double quote has no hyphen, and the
message does not start with a double quote, the string, a double quote: `%q` escapes
the quote with a backslash. -/
theorem splitJobName_quote_counterexample :
    "\"".data.count '-' < 2 ∧
    (splitJobName (fun _ => false) "\"").2.2 ≠
      some ("\"" ++ "\"" ++ "\"" ++ " is not in format <product>-<runID>-<randomID>") ∧
    (splitJobName (fun _ => false) "\"").2.2 =
      some ("\"" ++ "\\\"" ++ "\"" ++ " is not in format <product>-<runID>-<randomID>") := by
  decide

theorem not_hyphenated_of_none (s : String) (h : jobNamePattern s.data = none) :
    ¬ ∃ p r x : String, p ≠ "" ∧ r ≠ "" ∧ x ≠ "" ∧
      s = p ++ "-" ++ r ++ "-" ++ x ∧ '\n' ∉ s.data := by
  rintro ⟨p, r, x, hp, hr, hx, hs, hnl⟩
  refine (jobNamePattern_eq_none_iff s.data).1 h
    ⟨p.data, r.data, x.data, data_ne_nil hp, data_ne_nil hr, data_ne_nil hx, ?_, ?_⟩
  · rw [hs]; exact data_hyphenated p r x
  · intro c hc hcn
    exact hnl (hcn ▸ hc)

/-- C9 (amended): for every string that holds a line feed or cannot be written as
`p-r-x` with `p`, `r` and `x` non-empty (where `r` and `x` may hold hyphens themselves),
`splitJobName` fails with the format error naming the string and returns an empty
product name and an empty run ID. -/
theorem splitJobName_fails (t : Char → Bool) (s : String)
    (h : ¬ ∃ p r x : String, p ≠ "" ∧ r ≠ "" ∧ x ≠ "" ∧
      s = p ++ "-" ++ r ++ "-" ++ x ∧ '\n' ∉ s.data) :
    splitJobName t s =
      ("", "", some (Quote t s ++ " is not in format <product>-<runID>-<randomID>")) := by
  apply splitJobName_of_none
  rw [jobNamePattern_eq_none_iff]
  rintro ⟨p, r, x, hp, hr, hx, hs, hnl⟩
  apply h
  refine ⟨String.mk p, String.mk r, String.mk x, ?_, ?_, ?_, ?_, ?_⟩
  · intro hp'
    exact hp (congrArg String.data hp')
  · intro hr'
    exact hr (congrArg String.data hr')
  · intro hx'
    exact hx (congrArg String.data hx')
  · apply String.ext
    rw [data_hyphenated]
    exact hs
  · intro hmem
    exact hnl _ hmem rfl

/-- C9, witness: the string `-b-c`, whose part before the second-to-last hyphen is
empty. -/
theorem splitJobName_fails_witness :
    splitJobName (fun _ => false) "-b-c" =
      ("", "", some "\"-b-c\" is not in format <product>-<runID>-<randomID>") :=
  splitJobName_fails (fun _ => false) "-b-c" (not_hyphenated_of_none "-b-c" (by decide))

/-- C9, counterexample: in `a-b--c` the part between the last two hyphens is empty and
in `a-b-c-` the part after the last hyphen is empty, and `splitJobName` fails for
neither: it returns `("a", "b-")` and `("a", "b")` with a nil error. -/
theorem splitJobName_empty_segment_counterexample :
    "a-b--c" = "a-b" ++ "-" ++ "" ++ "-" ++ "c" ∧
    splitJobName (fun _ => false) "a-b--c" = ("a", "b-", none) ∧
    "a-b-c-" = "a-b" ++ "-" ++ "c" ++ "-" ++ "" ∧
    splitJobName (fun _ => false) "a-b-c-" = ("a", "b", none) := by
  decide


/-! ## ckEnvironment -/

/-- C8: `ckEnvironment` returns nil exactly when both required keys are defined;
otherwise its message is the heading followed by one line, a tab, the key and a line
feed, for each missing key; the keys listed follow the order of the required list, are
exactly the required keys that are not defined, and each is listed once (the two keys
being different). -/
theorem ckEnvironment_reports_missing (c : Common) (env : String → Option String)
    (hne : c.EnvKeyInternalCommunicationKey ≠ c.EnvJobName) :
    (ckEnvironment c env = none ↔
      ∀ k ∈ [c.EnvKeyInternalCommunicationKey, c.EnvJobName], (env k).isSome = true) ∧
    ((∃ k ∈ [c.EnvKeyInternalCommunicationKey, c.EnvJobName], env k = none) →
      ckEnvironment c env = some
        ("the following required environment variables are missing:\n" ++
          String.join (([c.EnvKeyInternalCommunicationKey, c.EnvJobName].filter
            (fun k => (env k).isNone)).map (fun k => "\t" ++ k ++ "\n")))) ∧
    ([c.EnvKeyInternalCommunicationKey, c.EnvJobName].filter
      (fun k => (env k).isNone)).Sublist [c.EnvKeyInternalCommunicationKey, c.EnvJobName] ∧
    (∀ k, k ∈ [c.EnvKeyInternalCommunicationKey, c.EnvJobName].filter
        (fun k => (env k).isNone) ↔
      k ∈ [c.EnvKeyInternalCommunicationKey, c.EnvJobName] ∧ env k = none) ∧
    ∀ k ∈ [c.EnvKeyInternalCommunicationKey, c.EnvJobName].filter (fun k => (env k).isNone),
      ([c.EnvKeyInternalCommunicationKey, c.EnvJobName].filter
        (fun k => (env k).isNone)).count k = 1 := by
  have hne' : c.EnvJobName ≠ c.EnvKeyInternalCommunicationKey := fun h => hne h.symm
  refine ⟨?_, ?_, List.filter_sublist _, ?_, ?_⟩
  · cases h1 : env c.EnvKeyInternalCommunicationKey <;> cases h2 : env c.EnvJobName <;>
      simp [ckEnvironment, h1, h2]
  · intro _
    cases h1 : env c.EnvKeyInternalCommunicationKey <;> cases h2 : env c.EnvJobName <;>
      simp_all [ckEnvironment, String.join, String.append_assoc]
  · intro k
    simp only [List.mem_filter, Option.isNone_iff_eq_none, decide_eq_true_eq]
  · intro k hk
    cases h1 : env c.EnvKeyInternalCommunicationKey <;> cases h2 : env c.EnvJobName <;>
      simp_all [List.filter_cons, List.count_cons]


/-- C8, witness: with only the job name defined, the message lists the communication
key and nothing else. -/
theorem ckEnvironment_reports_missing_witness :
    ckEnvironment sampleCommon (fun k => if k = "ENV_JOB_NAME" then some "shop-42-x7k" else none) =
      some ("the following required environment variables are missing:\n" ++
        "\tA01_INTERNAL_COMKEY\n") :=
  ((ckEnvironment_reports_missing sampleCommon
    (fun k => if k = "ENV_JOB_NAME" then some "shop-42-x7k" else none) (by decide)).2.1
    ⟨"A01_INTERNAL_COMKEY", by decide, by decide⟩).trans (by decide)

/-! ## preparePod -/

/-- A name without a slash is searched for in `$PATH`: with `true` as preparation
script, found there although `os.Stat` finds no such file in the working directory,
`preparePod` logs that preparation is skipped, runs the command and returns. -/
theorem preparePod_searched_name :
    preparePod (fun _ => true) (fun _ _ => (none, "")) "true" =
      ([Event.log .info "skipping pod preparation, true not present",
        Event.run "true" [], Event.log .info "pod prepared"], false) := by
  decide

/-- C4 (what the code does): when the preparation script is given by a path (a
name with a slash in it, as `/app/prepare_pod`) and the file does not exist,
`preparePod` logs that preparation is skipped, then runs the path all the same, and the
failure of that run terminates the process. -/
theorem preparePod_missing_script (IsNotExist : String → Bool)
    (Exec : String → List String → Option String × String) (prepPath : String)
    (hpath : isDirectPath prepPath = true) (h : IsNotExist prepPath = true) :
    preparePod IsNotExist Exec prepPath =
      ([Event.log .info ("skipping pod preparation, " ++ prepPath ++ " not present"),
        Event.run prepPath [],
        Event.log .fatal ("pod preparation failed\n\terr: " ++ errNoSuchFile prepPath)],
       true) := by
  simp [preparePod, cmdRun, h, hpath]

/-- C4, witness: with no file installed at `/app/prepare_pod`, `preparePod` terminates
the process, and so `main` ends fatally without fetching a delivery, while `afterTask`
on the same file system only logs. -/
theorem preparePod_missing_script_witness :
    preparePod (fun _ => true) (fun _ _ => (none, "")) "/app/prepare_pod" =
      ([Event.log .info "skipping pod preparation, /app/prepare_pod not present",
        Event.run "/app/prepare_pod" [],
        Event.log .fatal ("pod preparation failed\n\terr: " ++
          "fork/exec /app/prepare_pod: no such file or directory")], true) ∧
    main sampleCommon { sampleWorld none [.ok (sampleDelivery "t1" true)] with
      IsNotExist := fun _ => true } =
      ⟨[(none, Event.log .info "A01 Droid Engine\n\tVersion: Unknown\n\tCommit: Unknown"),
        (none, Event.log .info "Run ID: 42"),
        (none, Event.log .info "skipping pod preparation, /app/prepare_pod not present"),
        (none, Event.run "/app/prepare_pod" []),
        (none, Event.log .fatal ("pod preparation failed\n\terr: " ++
          "fork/exec /app/prepare_pod: no such file or directory"))], Exit.fatal⟩ ∧
    afterTask sampleCommon sampleModels (fun _ => true) (fun _ _ => (none, ""))
      "/app/after_test" sampleResult = [Event.log .info "no after task action found"] :=
  ⟨(preparePod_missing_script (fun _ => true) (fun _ _ => (none, ""))
    "/app/prepare_pod" (by decide) rfl).trans (by decide), by decide, by decide⟩

/-! ## The loop body -/

theorem afterTask_no_step (c : Common) (m : Models) (IsNotExist : String → Bool)
    (Exec : String → List String → Option String × String) (afterPath : String)
    (r : TaskResult) :
    (afterTask c m IsNotExist Exec afterPath r).filter (fun e => e.step.isSome) = [] := by
  unfold afterTask
  split
  · rfl
  · split
    · rfl
    · dsimp only
      split <;> split <;> rfl

theorem runTask_steps (m : Models) (x : Context) (d : Delivery) :
    (runTask m x d).1.filter (fun e => e.step.isSome) =
      [Event.unmarshal] ++ (if (m.Unmarshal d.Body).2 = none then [Event.execute] else []) := by
  unfold runTask
  rcases h : m.Unmarshal d.Body with ⟨setting, err⟩
  cases err <;> simp [Event.step]

theorem commitTask_steps (c : Common) (m : Models) (x : Context) (d : Delivery)
    (r0 : TaskResult) (output : String) :
    (commitTask c m x d r0 output).filter (fun e => e.step.isSome) =
      [Event.commitNew r0] ++
      (match d.CommitNew r0 with
        | .ok r1 =>
          [Event.saveTaskLog r1, Event.afterTask r1] ++
          (if x.logPathTemplate.length > 0 then
            [Event.commitChanges (rewriteDetails c x.logPathTemplate
              (d.SaveTaskLog r1 output).1 r1)]
          else [])
        | .error _ => []) := by
  cases hc : d.CommitNew r0 with
  | error e => simp [commitTask, hc, Event.step]
  | ok r1 =>
    rcases hs : d.SaveTaskLog r1 output with ⟨taskLogPath, err⟩
    have ha := afterTask_no_step c m d.IsNotExist d.Exec c.PathScriptAfterTest r1
    by_cases ht : x.logPathTemplate.length > 0
    · cases err <;>
        cases hcc : d.CommitChanges (rewriteDetails c x.logPathTemplate taskLogPath r1) <;>
        simp only [commitTask, hc, hs, ht, hcc, List.filter_append, ha, if_true] <;>
        simp [Event.step]
    · cases err <;> simp only [commitTask, hc, hs, ht, List.filter_append, ha, if_false] <;>
        simp [Event.step]

theorem processDelivery_steps (c : Common) (m : Models) (x : Context) (d : Delivery) :
    (processDelivery c m x d).filter (fun e => e.step.isSome) =
      [Event.got, Event.unmarshal] ++
      (if (m.Unmarshal d.Body).2 = none then [Event.execute] else []) ++
      [Event.commitNew (runTask m x d).2.1] ++
      (match d.CommitNew (runTask m x d).2.1 with
        | .ok r1 =>
          [Event.saveTaskLog r1, Event.afterTask r1] ++
          (if x.logPathTemplate.length > 0 then
            [Event.commitChanges (rewriteDetails c x.logPathTemplate
              (d.SaveTaskLog r1 (runTask m x d).2.2).1 r1)]
          else [])
        | .error _ => []) ++
      [Event.ack] := by
  have h1 := runTask_steps m x d
  have h2 := commitTask_steps c m x d (runTask m x d).2.1 (runTask m x d).2.2
  unfold processDelivery
  rcases hr : runTask m x d with ⟨ran, taskResult, output⟩
  rw [hr] at h1 h2
  simp only [List.filter_append, h1, h2]
  cases d.Ack <;> simp [Event.step]


/-! ## The loop and main -/

theorem eventsOf_append (i : Nat) (a b : List (Option Nat × Event)) :
    eventsOf i (a ++ b) = eventsOf i a ++ eventsOf i b := by
  simp [eventsOf]

theorem eventsOf_tagged_same (i : Nat) (l : List Event) :
    eventsOf i (l.map (fun e => (some i, e))) = l := by
  induction l with
  | nil => rfl
  | cons e es ih =>
    simp only [eventsOf] at ih
    simp [eventsOf, ih]

theorem eventsOf_tagged_other (i j : Nat) (h : j ≠ i) (l : List Event) :
    eventsOf i (l.map (fun e => (some j, e))) = [] := by
  induction l with
  | nil => rfl
  | cons e es ih =>
    simp only [eventsOf] at ih
    simp [eventsOf, ih, h]

theorem eventsOf_untagged (i : Nat) (l : List Event) :
    eventsOf i (l.map (fun e => (none, e))) = [] := by
  induction l with
  | nil => rfl
  | cons e es ih =>
    simp only [eventsOf] at ih
    simp [eventsOf, ih]

theorem eventsOf_loop_lt (c : Common) (m : Models) (x : Context) (i : Nat) :
    ∀ (q : List (Except String Delivery)) (n : Nat), i < n →
      eventsOf i (loop c m x n q).trace = [] := by
  intro q
  induction q with
  | nil => intro n _; simp [loop, eventsOf]
  | cons a rest ih =>
    intro n hn
    cases a with
    | error e => simp [loop, eventsOf]
    | ok d =>
      simp only [loop, eventsOf_append]
      rw [eventsOf_tagged_other i n (by omega), ih (n + 1) (by omega)]
      rfl

theorem eventsOf_loop (c : Common) (m : Models) (x : Context) (d : Delivery)
    (later : List (Except String Delivery)) :
    ∀ (earlier : List Delivery) (n : Nat),
      eventsOf (n + earlier.length)
        (loop c m x n (earlier.map Except.ok ++ Except.ok d :: later)).trace =
      processDelivery c m x d := by
  intro earlier
  induction earlier with
  | nil =>
    intro n
    simp only [List.map_nil, List.nil_append, List.length_nil, Nat.add_zero, loop,
      eventsOf_append]
    rw [eventsOf_tagged_same, eventsOf_loop_lt c m x n later (n + 1) (by omega)]
    simp
  | cons d0 ds ih =>
    intro n
    simp only [List.map_cons, List.cons_append, List.length_cons, loop, eventsOf_append]
    rw [eventsOf_tagged_other _ n (by omega)]
    have := ih (n + 1)
    rw [show n + 1 + ds.length = n + (ds.length + 1) by omega] at this
    exact this

theorem main_of_startup (c : Common) (w : World) (x : Context)
    (hs : (startup c w).2 = some x) :
    main c w =
      ⟨(startup c w).1.map (fun e => (none, e)) ++ (loop c w.models x 0 w.Queue).trace,
        (loop c w.models x 0 w.Queue).exit⟩ := by
  unfold main
  rcases h : startup c w with ⟨before, o⟩
  rw [h] at hs
  simp only at hs
  subst hs
  rfl

theorem eventsOf_main (c : Common) (w : World) (x : Context) (d : Delivery)
    (earlier : List Delivery) (later : List (Except String Delivery))
    (hs : (startup c w).2 = some x)
    (hq : w.Queue = earlier.map Except.ok ++ Except.ok d :: later) :
    eventsOf earlier.length (main c w).trace = processDelivery c w.models x d := by
  rw [main_of_startup c w x hs]
  simp only [eventsOf_append, eventsOf_untagged, List.nil_append]
  have := eventsOf_loop c w.models x d later earlier 0
  rw [Nat.zero_add] at this
  rw [hq, this]

theorem loop_exit_fatal_iff (c : Common) (m : Models) (x : Context) :
    ∀ (q : List (Except String Delivery)) (n : Nat),
      (loop c m x n q).exit = Exit.fatal ↔ ∃ e, Except.error e ∈ q := by
  intro q
  induction q with
  | nil => intro n; simp [loop]
  | cons a rest ih =>
    intro n
    cases a with
    | error e => simp [loop]
    | ok d => simp [loop, ih (n + 1)]

theorem preparePod_terminates_iff (IsNotExist : String → Bool)
    (Exec : String → List String → Option String × String) (prepPath : String) :
    (preparePod IsNotExist Exec prepPath).2 = true ↔
      (cmdRun IsNotExist Exec prepPath []).1 ≠ none := by
  unfold preparePod
  rcases h : cmdRun IsNotExist Exec prepPath [] with ⟨err, output⟩
  cases err <;> by_cases ho : output.length > 0 <;> simp [ho]

theorem startup_none_iff (c : Common) (w : World) :
    (startup c w).2 = none ↔
      (ckEnvironment c w.LookupEnv ≠ none ∨
       (splitJobName w.isPrintTable (Getenv w.LookupEnv c.EnvJobName)).2.2 ≠ none ∨
       w.CreateInClusterTaskBroker ≠ none ∨
       w.QueueDeclare (Getenv w.LookupEnv c.EnvJobName) ≠ none ∨
       (cmdRun w.IsNotExist w.Exec c.PathScriptPreparePod []).1 ≠ none) := by
  have hp := preparePod_terminates_iff w.IsNotExist w.Exec c.PathScriptPreparePod
  unfold startup
  cases h1 : ckEnvironment c w.LookupEnv with
  | some err => simp
  | none =>
    rcases h2 : splitJobName w.isPrintTable (Getenv w.LookupEnv c.EnvJobName) with
      ⟨productName, runID, err⟩
    cases err with
    | some e => simp [h2]
    | none =>
      cases h3 : w.CreateInClusterTaskBroker with
      | some e => simp [h2, h3]
      | none =>
        cases h4 : w.QueueDeclare (Getenv w.LookupEnv c.EnvJobName) with
        | some e => simp [h2, h3, h4]
        | none =>
          rcases h5 : preparePod w.IsNotExist w.Exec c.PathScriptPreparePod with
            ⟨prepared, terminated⟩
          rw [h5] at hp
          cases terminated with
          | true => simpa [h2, h3, h4, h5] using hp
          | false => simpa [h2, h3, h4, h5] using hp

theorem main_exit_fatal_iff (c : Common) (w : World) :
    (main c w).exit = Exit.fatal ↔
      ((startup c w).2 = none ∨ ∃ e, Except.error e ∈ w.Queue) := by
  cases h : (startup c w).2 with
  | some x =>
    rw [main_of_startup c w x h]
    simp [loop_exit_fatal_iff]
  | none =>
    have : main c w = ⟨(startup c w).1.map (fun e => (none, e)), Exit.fatal⟩ := by
      unfold main
      rcases h' : startup c w with ⟨before, o⟩
      rw [h'] at h
      simp only at h
      subst h
      rfl
    rw [this]
    simp


theorem filterMap_step_filter (l : List Event) :
    l.filterMap Event.step = (l.filter (fun e => e.step.isSome)).filterMap Event.step := by
  induction l with
  | nil => rfl
  | cons e es ih =>
    cases h : e.step with
    | none => simp [List.filterMap_cons, List.filter_cons, h, ih]
    | some st => simp [List.filterMap_cons, List.filter_cons, h, ih]

theorem stepEvents_main (c : Common) (w : World) (x : Context) (d : Delivery)
    (earlier : List Delivery) (later : List (Except String Delivery))
    (hs : (startup c w).2 = some x)
    (hq : w.Queue = earlier.map Except.ok ++ Except.ok d :: later) :
    (eventsOf earlier.length (main c w).trace).filter (fun e => e.step.isSome) =
      [Event.got, Event.unmarshal] ++
      (if (w.models.Unmarshal d.Body).2 = none then [Event.execute] else []) ++
      [Event.commitNew (runTask w.models x d).2.1] ++
      (match d.CommitNew (runTask w.models x d).2.1 with
        | .ok r1 =>
          [Event.saveTaskLog r1, Event.afterTask r1] ++
          (if x.logPathTemplate.length > 0 then
            [Event.commitChanges (rewriteDetails c x.logPathTemplate
              (d.SaveTaskLog r1 (runTask w.models x d).2.2).1 r1)]
          else [])
        | .error _ => []) ++
      [Event.ack] := by
  rw [eventsOf_main c w x d earlier later hs hq, processDelivery_steps]

theorem stepsOf_main (c : Common) (w : World) (x : Context) (d : Delivery)
    (earlier : List Delivery) (later : List (Except String Delivery))
    (hs : (startup c w).2 = some x)
    (hq : w.Queue = earlier.map Except.ok ++ Except.ok d :: later) :
    stepsOf earlier.length (main c w).trace =
      [Step.get, Step.unmarshal] ++
      (if (w.models.Unmarshal d.Body).2 = none then [Step.execute] else []) ++
      [Step.commitNew] ++
      (match d.CommitNew (runTask w.models x d).2.1 with
        | .ok _ =>
          [Step.saveTaskLog, Step.afterTask] ++
          (if x.logPathTemplate.length > 0 then [Step.commitChanges] else [])
        | .error _ => []) ++
      [Step.ack] := by
  unfold stepsOf
  rw [filterMap_step_filter, stepEvents_main c w x d earlier later hs hq]
  by_cases hu : (w.models.Unmarshal d.Body).2 = none <;>
    by_cases ht : x.logPathTemplate.length > 0 <;>
    cases hc : d.CommitNew (runTask w.models x d).2.1 <;>
    simp [hu, ht, Event.step]

theorem mem_stepEvents_iff (l : List Event) (e : Event) (he : e.step.isSome = true) :
    e ∈ l ↔ e ∈ l.filter (fun e => e.step.isSome) := by
  simp [List.mem_filter, he]


/-! ## The claims about the loop

In the theorems below the process has reached the loop with the context `x`
(`hs`), and the fetch number `earlier.length` handed out the delivery `d` after the
deliveries `earlier` (`hq`). -/

/-- C3: every delivery obtained from the queue is acknowledged exactly once, the
acknowledgment is the last step taken for it, and the decode step and the `CommitNew`
attempt (and the execution, which takes place exactly when decoding succeeded) come
before it, whatever the outcomes of the calls. -/
theorem ack_once_after_commit (c : Common) (w : World) (x : Context) (d : Delivery)
    (earlier : List Delivery) (later : List (Except String Delivery))
    (hs : (startup c w).2 = some x)
    (hq : w.Queue = earlier.map Except.ok ++ Except.ok d :: later) :
    (stepsOf earlier.length (main c w).trace).count Step.ack = 1 ∧
    ∃ pre, stepsOf earlier.length (main c w).trace = pre ++ [Step.ack] ∧
      Step.ack ∉ pre ∧ Step.unmarshal ∈ pre ∧ Step.commitNew ∈ pre ∧
      (Step.execute ∈ pre ↔ (w.models.Unmarshal d.Body).2 = none) := by
  rw [stepsOf_main c w x d earlier later hs hq]
  refine ⟨?_, _, rfl, ?_⟩ <;>
    by_cases hu : (w.models.Unmarshal d.Body).2 = none <;>
    by_cases ht : x.logPathTemplate.length > 0 <;>
    cases hc : d.CommitNew (runTask w.models x d).2.1 <;>
    simp [hu, ht]

/-- C3, witness: a delivery whose body does not decode and whose result the store
refuses is acknowledged once all the same. -/
theorem ack_once_after_commit_witness :
    (stepsOf 0 (main sampleCommon
      (sampleWorld none [.ok (sampleDelivery "" false)])).trace).count Step.ack = 1 :=
  (ack_once_after_commit sampleCommon (sampleWorld none [.ok (sampleDelivery "" false)])
    ⟨"shop-42-x7k", "shop", "42", "pod-1", ""⟩ (sampleDelivery "" false) [] []
    (by decide) rfl).1

/-- C5 (amended): for a delivery whose `CommitNew` succeeded, `afterTask` is invoked
exactly once, after the `CommitNew` and `SaveTaskLog` attempts, whether or not
`SaveTaskLog` returned an error, and with the result `CommitNew` returned; for a
delivery whose `CommitNew` failed, neither `SaveTaskLog` nor `afterTask` is invoked. -/
theorem afterTask_once_when_committed (c : Common) (w : World) (x : Context) (d : Delivery)
    (earlier : List Delivery) (later : List (Except String Delivery))
    (hs : (startup c w).2 = some x)
    (hq : w.Queue = earlier.map Except.ok ++ Except.ok d :: later) :
    (∀ r1, d.CommitNew (runTask w.models x d).2.1 = .ok r1 →
      (stepsOf earlier.length (main c w).trace).count Step.afterTask = 1 ∧
      (∃ pre post, stepsOf earlier.length (main c w).trace = pre ++ Step.afterTask :: post ∧
        Step.commitNew ∈ pre ∧ Step.saveTaskLog ∈ pre) ∧
      ∀ r, Event.afterTask r ∈ eventsOf earlier.length (main c w).trace ↔ r = r1) ∧
    (∀ e, d.CommitNew (runTask w.models x d).2.1 = .error e →
      Step.saveTaskLog ∉ stepsOf earlier.length (main c w).trace ∧
      Step.afterTask ∉ stepsOf earlier.length (main c w).trace) := by
  constructor
  · intro r1 hc
    refine ⟨?_, ?_, ?_⟩
    · rw [stepsOf_main c w x d earlier later hs hq]
      by_cases hu : (w.models.Unmarshal d.Body).2 = none <;>
        by_cases ht : x.logPathTemplate.length > 0 <;>
        simp [hu, ht, hc]
    · rw [stepsOf_main c w x d earlier later hs hq]
      refine ⟨[Step.get, Step.unmarshal] ++
        (if (w.models.Unmarshal d.Body).2 = none then [Step.execute] else []) ++
        [Step.commitNew, Step.saveTaskLog],
        (if x.logPathTemplate.length > 0 then [Step.commitChanges] else []) ++ [Step.ack],
        ?_, ?_, ?_⟩ <;> simp [hc]
    · intro r
      rw [mem_stepEvents_iff _ (Event.afterTask r) rfl, stepEvents_main c w x d earlier later hs hq]
      by_cases hu : (w.models.Unmarshal d.Body).2 = none <;>
        by_cases ht : x.logPathTemplate.length > 0 <;>
        simp [hu, ht, hc]
  · intro e hc
    rw [stepsOf_main c w x d earlier later hs hq]
    by_cases hu : (w.models.Unmarshal d.Body).2 = none <;> simp [hu, hc]

/-- C5, witness: the store accepts the result and the hook is invoked once, with the
result the store returned. -/
theorem afterTask_once_when_committed_witness :
    (stepsOf 0 (main sampleCommon
      (sampleWorld none [.ok (sampleDelivery "t1" true)])).trace).count Step.afterTask = 1 :=
  ((afterTask_once_when_committed sampleCommon
    (sampleWorld none [.ok (sampleDelivery "t1" true)])
    ⟨"shop-42-x7k", "shop", "42", "pod-1", ""⟩ (sampleDelivery "t1" true) [] []
    (by decide) rfl).1 { sampleResult with ID := 7 } rfl).1

/-- C5, counterexample: the store refuses the result of the one delivery of the
queue; the delivery is processed and acknowledged and `afterTask` is never invoked. -/
theorem afterTask_skipped_counterexample :
    stepsOf 0 (main sampleCommon (sampleWorld none [.ok (sampleDelivery "t1" false)])).trace =
      [Step.get, Step.unmarshal, Step.execute, Step.commitNew, Step.ack] ∧
    (stepsOf 0 (main sampleCommon
      (sampleWorld none [.ok (sampleDelivery "t1" false)])).trace).count Step.afterTask = 0 := by
  decide


theorem startup_context (c : Common) (w : World) (x : Context)
    (hs : (startup c w).2 = some x) :
    x.jobName = Getenv w.LookupEnv c.EnvJobName ∧
    x.productName = (splitJobName w.isPrintTable (Getenv w.LookupEnv c.EnvJobName)).1 ∧
    x.runID = (splitJobName w.isPrintTable (Getenv w.LookupEnv c.EnvJobName)).2.1 ∧
    x.podName = Getenv w.LookupEnv c.EnvPodName ∧
    x.logPathTemplate =
      (w.TryGetSecretInBytes x.productName ProductSecretKeyLogPathTemplate).getD "" := by
  unfold startup at hs
  cases h1 : ckEnvironment c w.LookupEnv with
  | some err => simp [h1] at hs
  | none =>
    rcases h2 : splitJobName w.isPrintTable (Getenv w.LookupEnv c.EnvJobName) with
      ⟨productName, runID, err⟩
    cases err with
    | some e => simp [h1, h2] at hs
    | none =>
      cases h3 : w.CreateInClusterTaskBroker with
      | some e => simp [h1, h2, h3] at hs
      | none =>
        cases h4 : w.QueueDeclare (Getenv w.LookupEnv c.EnvJobName) with
        | some e => simp [h1, h2, h3, h4] at hs
        | none =>
          rcases h5 : preparePod w.IsNotExist w.Exec c.PathScriptPreparePod with
            ⟨prepared, terminated⟩
          cases terminated with
          | true => simp [h1, h2, h3, h4, h5] at hs
          | false =>
            simp [h1, h2, h3, h4, h5] at hs
            subst hs
            cases h6 : w.TryGetSecretInBytes productName ProductSecretKeyLogPathTemplate <;>
              simp [h6]

/-- C6 (amended): the log-path template the loop works with is the secret of the
product when there is one and empty otherwise; for every delivery the commit-changes
step is executed if and only if that template is not empty and `CommitNew` succeeded,
and it is then passed the result `CommitNew` returned with the log-path and record-path
details rewritten; apart from that the loop writes no result: `SaveTaskLog` and
`afterTask` are passed the result exactly as `CommitNew` returned it. -/
theorem commitChanges_iff_template_and_committed (c : Common) (w : World) (x : Context)
    (d : Delivery) (earlier : List Delivery) (later : List (Except String Delivery))
    (hs : (startup c w).2 = some x)
    (hq : w.Queue = earlier.map Except.ok ++ Except.ok d :: later) :
    x.logPathTemplate =
      (w.TryGetSecretInBytes x.productName ProductSecretKeyLogPathTemplate).getD "" ∧
    (Step.commitChanges ∈ stepsOf earlier.length (main c w).trace ↔
      (x.logPathTemplate.length > 0 ∧
        ∃ r1, d.CommitNew (runTask w.models x d).2.1 = .ok r1)) ∧
    (∀ r, Event.commitChanges r ∈ eventsOf earlier.length (main c w).trace →
      ∃ r1, d.CommitNew (runTask w.models x d).2.1 = .ok r1 ∧
        r = rewriteDetails c x.logPathTemplate
          (d.SaveTaskLog r1 (runTask w.models x d).2.2).1 r1) ∧
    (∀ r, Event.saveTaskLog r ∈ eventsOf earlier.length (main c w).trace ∨
        Event.afterTask r ∈ eventsOf earlier.length (main c w).trace →
      d.CommitNew (runTask w.models x d).2.1 = .ok r) := by
  refine ⟨(startup_context c w x hs).2.2.2.2, ?_, ?_, ?_⟩
  · rw [stepsOf_main c w x d earlier later hs hq]
    by_cases hu : (w.models.Unmarshal d.Body).2 = none <;>
      by_cases ht : x.logPathTemplate.length > 0 <;>
      cases hc : d.CommitNew (runTask w.models x d).2.1 <;>
      simp [hu, ht]
  · intro r
    rw [mem_stepEvents_iff _ (Event.commitChanges r) rfl,
      stepEvents_main c w x d earlier later hs hq]
    by_cases hu : (w.models.Unmarshal d.Body).2 = none <;>
      by_cases ht : x.logPathTemplate.length > 0 <;>
      cases hc : d.CommitNew (runTask w.models x d).2.1 <;>
      simp [hu, ht]
  · intro r
    rw [mem_stepEvents_iff _ (Event.saveTaskLog r) rfl,
      mem_stepEvents_iff _ (Event.afterTask r) rfl,
      stepEvents_main c w x d earlier later hs hq]
    by_cases hu : (w.models.Unmarshal d.Body).2 = none <;>
      by_cases ht : x.logPathTemplate.length > 0 <;>
      cases hc : d.CommitNew (runTask w.models x d).2.1 <;>
      simp [hu, ht] <;>
      (intro h; exact h.symm)

/-- C6, witness: with the template `http://logs/{}` and a store that accepts the
result, the commit-changes step is executed. -/
theorem commitChanges_iff_template_and_committed_witness :
    Step.commitChanges ∈ stepsOf 0 (main sampleCommon
      (sampleWorld (some "http://logs/\x7b\x7d") [.ok (sampleDelivery "t1" true)])).trace :=
  (commitChanges_iff_template_and_committed sampleCommon
    (sampleWorld (some "http://logs/\x7b\x7d") [.ok (sampleDelivery "t1" true)])
    ⟨"shop-42-x7k", "shop", "42", "pod-1", "http://logs/\x7b\x7d"⟩ (sampleDelivery "t1" true)
    [] [] (by decide) rfl).2.1.2 ⟨by decide, { sampleResult with ID := 7 }, rfl⟩

/-- C6, counterexample: the template `http://logs/{}` is configured for the product
and the store refuses the result of the delivery; the commit-changes step is not
executed. -/
theorem commitChanges_skipped_counterexample :
    (startup sampleCommon (sampleWorld (some "http://logs/\x7b\x7d")
      [.ok (sampleDelivery "t1" false)])).2 =
      some ⟨"shop-42-x7k", "shop", "42", "pod-1", "http://logs/\x7b\x7d"⟩ ∧
    stepsOf 0 (main sampleCommon (sampleWorld (some "http://logs/\x7b\x7d")
      [.ok (sampleDelivery "t1" false)])).trace =
      [Step.get, Step.unmarshal, Step.execute, Step.commitNew, Step.ack] ∧
    Step.commitChanges ∉ stepsOf 0 (main sampleCommon (sampleWorld (some "http://logs/\x7b\x7d")
      [.ok (sampleDelivery "t1" false)])).trace := by
  decide

/-- C10 (amended): for every delivery the steps occur in the order: decoding, task
execution (when decoding succeeded), commit-new, and, when commit-new succeeded,
save-log, post-task hook, commit-changes (when the template is not empty); then the
acknowledgment.  The hook runs before the commit-changes step and is passed the result
as `CommitNew` returned it, without the rewritten details. -/
theorem steps_in_order (c : Common) (w : World) (x : Context)
    (d : Delivery) (earlier : List Delivery) (later : List (Except String Delivery))
    (hs : (startup c w).2 = some x)
    (hq : w.Queue = earlier.map Except.ok ++ Except.ok d :: later) :
    stepsOf earlier.length (main c w).trace =
      [Step.get, Step.unmarshal] ++
      (if (w.models.Unmarshal d.Body).2 = none then [Step.execute] else []) ++
      [Step.commitNew] ++
      (match d.CommitNew (runTask w.models x d).2.1 with
        | .ok _ =>
          [Step.saveTaskLog, Step.afterTask] ++
          (if x.logPathTemplate.length > 0 then [Step.commitChanges] else [])
        | .error _ => []) ++
      [Step.ack] ∧
    ∀ r, Event.afterTask r ∈ eventsOf earlier.length (main c w).trace →
      d.CommitNew (runTask w.models x d).2.1 = .ok r := by
  refine ⟨stepsOf_main c w x d earlier later hs hq, ?_⟩
  intro r
  rw [mem_stepEvents_iff _ (Event.afterTask r) rfl,
    stepEvents_main c w x d earlier later hs hq]
  by_cases hu : (w.models.Unmarshal d.Body).2 = none <;>
    by_cases ht : x.logPathTemplate.length > 0 <;>
    cases hc : d.CommitNew (runTask w.models x d).2.1 <;>
    simp [hu, ht] <;>
    (intro h; exact h.symm)

/-- C10, witness: the steps of a delivery that decodes, with a store that accepts the
result and the template `http://logs/{}`. -/
theorem steps_in_order_witness :
    stepsOf 0 (main sampleCommon
      (sampleWorld (some "http://logs/\x7b\x7d") [.ok (sampleDelivery "t1" true)])).trace =
      [Step.get, Step.unmarshal, Step.execute, Step.commitNew, Step.saveTaskLog,
        Step.afterTask, Step.commitChanges, Step.ack] :=
  (steps_in_order sampleCommon
    (sampleWorld (some "http://logs/\x7b\x7d") [.ok (sampleDelivery "t1" true)])
    ⟨"shop-42-x7k", "shop", "42", "pod-1", "http://logs/\x7b\x7d"⟩ (sampleDelivery "t1" true)
    [] [] (by decide) rfl).1.trans (by decide)

/-- C10, counterexample: with the template `http://logs/{}` configured, the hook runs
before the commit-changes step, and the result it is passed carries neither the log-path
nor the record-path detail, which only the result passed to `CommitChanges` carries. -/
theorem afterTask_before_commitChanges_counterexample :
    (eventsOf 0 (main sampleCommon (sampleWorld (some "http://logs/\x7b\x7d")
      [.ok (sampleDelivery "t1" true)])).trace).filter (fun e => e.step.isSome) =
      [Event.got, Event.unmarshal, Event.execute,
        Event.commitNew ⟨0, 42, "pod-1", "Passed", [("agent", "droid")], 3⟩,
        Event.saveTaskLog ⟨7, 42, "pod-1", "Passed", [("agent", "droid")], 3⟩,
        Event.afterTask ⟨7, 42, "pod-1", "Passed", [("agent", "droid")], 3⟩,
        Event.commitChanges ⟨7, 42, "pod-1", "Passed",
          [("a01.reserved.taskrecordpath", "http://logs/42/recording_7.yaml"),
           ("a01.reserved.tasklogpath", "http://logs/logs/7.log"),
           ("agent", "droid")], 3⟩,
        Event.ack] := by
  decide

theorem processDelivery_eq (c : Common) (m : Models) (x : Context) (d : Delivery) :
    processDelivery c m x d =
      [Event.got] ++ (runTask m x d).1 ++
        commitTask c m x d (runTask m x d).2.1 (runTask m x d).2.2 ++
        ([Event.ack] ++
          (match d.Ack with
            | some e => [Event.log .error ("Failed to ack delivery: " ++ e)]
            | none => [Event.log .info "ACK"])) := by
  rfl

theorem runTask_logs_decode_error (m : Models) (x : Context) (d : Delivery) (e : String)
    (h : (m.Unmarshal d.Body).2 = some e) :
    Event.log .error ("Failed to unmarshel a delivery's body in JSON: " ++ e) ∈
      (runTask m x d).1 := by
  unfold runTask
  rcases hu : m.Unmarshal d.Body with ⟨setting, err⟩
  rw [hu] at h
  simp only at h
  subst h
  simp

theorem afterTask_logs_errors (c : Common) (m : Models) (IsNotExist : String → Bool)
    (Exec : String → List String → Option String × String) (afterPath : String)
    (r : TaskResult) (hexists : IsNotExist afterPath = false) :
    (∀ e, m.Marshal r = .error e →
      Event.log .error ("unable to encode task to JSON: " ++ e) ∈
        afterTask c m IsNotExist Exec afterPath r) ∧
    (∀ js e, m.Marshal r = .ok js →
      (Exec afterPath [c.PathMountArtifacts, js]).1 = some e →
      Event.log .error
        (if (Exec afterPath [c.PathMountArtifacts, js]).2.length > 0 then
          "after-task failed\n\terr: " ++ e ++ "\n\toutput:\n" ++
            (Exec afterPath [c.PathMountArtifacts, js]).2
        else "after-task failed\n\terr: " ++ e) ∈
        afterTask c m IsNotExist Exec afterPath r) := by
  constructor
  · intro e hm
    simp [afterTask, hexists, hm]
  · intro js e hm he
    rcases hx : Exec afterPath [c.PathMountArtifacts, js] with ⟨err, outBuf⟩
    rw [hx] at he
    simp only at he
    subst he
    by_cases ho : outBuf.length > 0 <;>
      simp [afterTask, hexists, hm, cmdRun, hx, ho]

theorem commitTask_logs_errors (c : Common) (m : Models) (x : Context) (d : Delivery)
    (r0 : TaskResult) (output : String) :
    (∀ e, d.CommitNew r0 = .error e →
      Event.log .error ("Failed to commit a new task: " ++ e) ∈
        commitTask c m x d r0 output) ∧
    (∀ r1, d.CommitNew r0 = .ok r1 →
      (∀ e, (d.SaveTaskLog r1 output).2 = some e →
        Event.log .error e ∈ commitTask c m x d r0 output) ∧
      (∀ ev ∈ afterTask c m d.IsNotExist d.Exec c.PathScriptAfterTest r1,
        ev ∈ commitTask c m x d r0 output) ∧
      (∀ e, x.logPathTemplate.length > 0 →
        d.CommitChanges (rewriteDetails c x.logPathTemplate
          (d.SaveTaskLog r1 output).1 r1) = some e →
        Event.log .error e ∈ commitTask c m x d r0 output)) := by
  constructor
  · intro e hc
    simp [commitTask, hc]
  · intro r1 hc
    rcases hs : d.SaveTaskLog r1 output with ⟨taskLogPath, err⟩
    refine ⟨?_, ?_, ?_⟩
    · intro e he
      simp only at he
      subst he
      simp [commitTask, hc, hs]
    · intro ev hev
      simp only [commitTask, hc, hs, List.mem_append]
      exact Or.inl (Or.inr (Or.inr hev))
    · intro e ht he
      simp only at he
      simp [commitTask, hc, hs, ht, he]

/-- C7 (amended): with the pod-preparation script installed, the process ends fatally
if and only if a required environment variable is missing, the job name is not in the
format, creating the broker or declaring the queue fails, the pod-preparation script
fails, or a fetch of a delivery fails.  Every other error (decoding, `CommitNew`,
`SaveTaskLog`, encoding for or running the hook, `CommitChanges`, `Ack`) is logged at the
error level while its delivery is processed, and that delivery is acknowledged all the
same. -/
theorem main_fatal_iff (c : Common) (w : World)
    (hprep : w.IsNotExist c.PathScriptPreparePod = false) :
    ((main c w).exit = Exit.fatal ↔
      (ckEnvironment c w.LookupEnv ≠ none ∨
       (splitJobName w.isPrintTable (Getenv w.LookupEnv c.EnvJobName)).2.2 ≠ none ∨
       w.CreateInClusterTaskBroker ≠ none ∨
       w.QueueDeclare (Getenv w.LookupEnv c.EnvJobName) ≠ none ∨
       (w.Exec c.PathScriptPreparePod []).1 ≠ none ∨
       ∃ e, Except.error e ∈ w.Queue)) ∧
    ∀ (x : Context) (d : Delivery) (earlier : List Delivery)
      (later : List (Except String Delivery)),
      (startup c w).2 = some x →
      w.Queue = earlier.map Except.ok ++ Except.ok d :: later →
      (∀ e, (w.models.Unmarshal d.Body).2 = some e →
        Event.log .error ("Failed to unmarshel a delivery's body in JSON: " ++ e) ∈
          eventsOf earlier.length (main c w).trace) ∧
      (∀ e, d.CommitNew (runTask w.models x d).2.1 = .error e →
        Event.log .error ("Failed to commit a new task: " ++ e) ∈
          eventsOf earlier.length (main c w).trace) ∧
      (∀ r1, d.CommitNew (runTask w.models x d).2.1 = .ok r1 →
        (∀ e, (d.SaveTaskLog r1 (runTask w.models x d).2.2).2 = some e →
          Event.log .error e ∈ eventsOf earlier.length (main c w).trace) ∧
        (∀ e, d.IsNotExist c.PathScriptAfterTest = false →
          w.models.Marshal r1 = .error e →
          Event.log .error ("unable to encode task to JSON: " ++ e) ∈
            eventsOf earlier.length (main c w).trace) ∧
        (∀ js e, d.IsNotExist c.PathScriptAfterTest = false →
          w.models.Marshal r1 = .ok js →
          (d.Exec c.PathScriptAfterTest [c.PathMountArtifacts, js]).1 = some e →
          Event.log .error
            (if (d.Exec c.PathScriptAfterTest [c.PathMountArtifacts, js]).2.length > 0 then
              "after-task failed\n\terr: " ++ e ++ "\n\toutput:\n" ++
                (d.Exec c.PathScriptAfterTest [c.PathMountArtifacts, js]).2
            else "after-task failed\n\terr: " ++ e) ∈
            eventsOf earlier.length (main c w).trace) ∧
        (∀ e, x.logPathTemplate.length > 0 →
          d.CommitChanges (rewriteDetails c x.logPathTemplate
            (d.SaveTaskLog r1 (runTask w.models x d).2.2).1 r1) = some e →
          Event.log .error e ∈ eventsOf earlier.length (main c w).trace)) ∧
      (∀ e, d.Ack = some e →
        Event.log .error ("Failed to ack delivery: " ++ e) ∈
          eventsOf earlier.length (main c w).trace) ∧
      Event.ack ∈ eventsOf earlier.length (main c w).trace := by
  constructor
  · have hrun : cmdRun w.IsNotExist w.Exec c.PathScriptPreparePod [] =
        w.Exec c.PathScriptPreparePod [] := by
      simp [cmdRun, hprep]
    rw [main_exit_fatal_iff, startup_none_iff, hrun]
    simp only [or_assoc]
  · intro x d earlier later hs hq
    rw [eventsOf_main c w x d earlier later hs hq, processDelivery_eq]
    have hct := commitTask_logs_errors c w.models x d (runTask w.models x d).2.1
      (runTask w.models x d).2.2
    refine ⟨?_, ?_, ?_, ?_, ?_⟩
    · intro e he
      have := runTask_logs_decode_error w.models x d e he
      simp only [List.mem_append]
      exact Or.inl (Or.inl (Or.inr this))
    · intro e he
      have := hct.1 e he
      simp only [List.mem_append]
      exact Or.inl (Or.inr this)
    · intro r1 hc
      obtain ⟨h1, h2, h3⟩ := hct.2 r1 hc
      have hat := fun hex => afterTask_logs_errors c w.models d.IsNotExist d.Exec
        c.PathScriptAfterTest r1 hex
      refine ⟨?_, ?_, ?_, ?_⟩
      · intro e he
        have := h1 e he
        simp only [List.mem_append]
        exact Or.inl (Or.inr this)
      · intro e hex hm
        have := h2 _ ((hat hex).1 e hm)
        simp only [List.mem_append]
        exact Or.inl (Or.inr this)
      · intro js e hex hm he
        have := h2 _ ((hat hex).2 js e hm he)
        simp only [List.mem_append]
        exact Or.inl (Or.inr this)
      · intro e ht he
        have := h3 e ht he
        simp only [List.mem_append]
        exact Or.inl (Or.inr this)
    · intro e he
      simp [he]
    · simp

/-- C7, witness: the preparation script is installed; the one delivery of the queue
does not decode, the store refuses its result and its acknowledgment fails: the three
errors are logged, and the process ends with success. -/
theorem main_fatal_iff_witness :
    Event.log .error ("Failed to unmarshel a delivery's body in JSON: " ++
      "unexpected end of JSON input") ∈
      eventsOf 0 (main sampleCommon (sampleWorld none
        [.ok { sampleDelivery "" false with Ack := some "channel closed" }])).trace ∧
    Event.log .error ("Failed to commit a new task: " ++ "store unreachable") ∈
      eventsOf 0 (main sampleCommon (sampleWorld none
        [.ok { sampleDelivery "" false with Ack := some "channel closed" }])).trace ∧
    Event.log .error ("Failed to ack delivery: " ++ "channel closed") ∈
      eventsOf 0 (main sampleCommon (sampleWorld none
        [.ok { sampleDelivery "" false with Ack := some "channel closed" }])).trace ∧
    (main sampleCommon (sampleWorld none
      [.ok { sampleDelivery "" false with Ack := some "channel closed" }])).exit =
      Exit.success :=
  have h := (main_fatal_iff sampleCommon (sampleWorld none
      [.ok { sampleDelivery "" false with Ack := some "channel closed" }]) rfl).2
    ⟨"shop-42-x7k", "shop", "42", "pod-1", ""⟩
    { sampleDelivery "" false with Ack := some "channel closed" } [] [] (by decide) rfl
  ⟨h.1 _ rfl, h.2.1 _ rfl, h.2.2.2.1 _ rfl, by decide⟩

/-- C7, counterexample: the configuration is complete and valid, the broker and the
queue answer, the preparation script succeeds, and the second fetch fails: the process
ends fatally, after the first delivery was processed and acknowledged. -/
theorem fetch_failure_fatal_counterexample :
    ckEnvironment sampleCommon
      (sampleWorld none [.ok (sampleDelivery "t1" true), .error "connection closed"]).LookupEnv
      = none ∧
    (splitJobName (fun _ => false) "shop-42-x7k").2.2 = none ∧
    (sampleWorld none [.ok (sampleDelivery "t1" true),
      .error "connection closed"]).CreateInClusterTaskBroker = none ∧
    (sampleWorld none [.ok (sampleDelivery "t1" true),
      .error "connection closed"]).QueueDeclare "shop-42-x7k" = none ∧
    (preparePod (fun _ => false) (fun _ _ => (none, "")) "/app/prepare_pod").2 = false ∧
    stepsOf 0 (main sampleCommon (sampleWorld none [.ok (sampleDelivery "t1" true),
      .error "connection closed"])).trace =
      [Step.get, Step.unmarshal, Step.execute, Step.commitNew, Step.saveTaskLog,
        Step.afterTask, Step.ack] ∧
    (none, Event.log Level.fatal "Failed to get a delivery: connection closed") ∈
      (main sampleCommon (sampleWorld none [.ok (sampleDelivery "t1" true),
        .error "connection closed"])).trace ∧
    (main sampleCommon (sampleWorld none [.ok (sampleDelivery "t1" true),
      .error "connection closed"])).exit = Exit.fatal := by
  decide

end Droid
